import Mathlib

/-!
Shallow embedding of the Hacker News "newest" ordering-validation scripts
(`src/index.js` and the unnamed earlier variant `src/unnamed/part_000`).

Instants are modelled as `Int` milliseconds (the value of `Date.prototype.getTime`);
an *invalid* Date (one whose time value is NaN) is modelled as `none : Option Int`.
-/

namespace HNV

/-- ASCII decimal digit, the character class `\d` of the source regex. -/
def isDigitCh (c : Char) : Bool := decide (48 ≤ c.toNat ∧ c.toNat ≤ 57)

/-- The character class `[a-zA-Z]` of the source regex. -/
def isAlphaCh (c : Char) : Bool :=
  decide ((65 ≤ c.toNat ∧ c.toNat ≤ 90) ∨ (97 ≤ c.toNat ∧ c.toNat ≤ 122))

/-- Code points matched by the JavaScript regex class `\s`
(WhiteSpace ∪ LineTerminator, also the set trimmed by `parseInt`). -/
def wsCodes : List Nat :=
  [9, 10, 11, 12, 13, 32, 160, 5760,
   8192, 8193, 8194, 8195, 8196, 8197, 8198, 8199, 8200, 8201, 8202,
   8232, 8233, 8239, 8287, 12288, 65279]

/-- The character class `\s` of the source regex. -/
def isWsCh (c : Char) : Bool := decide (c.toNat ∈ wsCodes)

/-- Decimal value of a (all-digit) character list: the semantics of
`parseInt` applied to the digits captured by the regex in `src/index.js`. -/
def digitsVal (l : List Char) : Nat :=
  l.foldl (fun a c => a * 10 + (c.toNat - 48)) 0

/-- Attempt to match the regex `(\d+)\s*([a-zA-Z]+)` at the head of `cs`,
returning the two captures.  The three character classes are pairwise
disjoint, so the greedy match needs no backtracking. -/
def matchAt (cs : List Char) : Option (List Char × List Char) :=
  let ds := cs.takeWhile isDigitCh
  if ds.isEmpty then none
  else
    let r1 := cs.dropWhile isDigitCh
    let r2 := r1.dropWhile isWsCh
    let us := r2.takeWhile isAlphaCh
    if us.isEmpty then none else some (ds, us)

/-- Leftmost match of `(\d+)\s*([a-zA-Z]+)` in `cs`: the semantics of
`timeText.match(/(\d+)\s*([a-zA-Z]+)/)` in `src/index.js`, returning the
two capture groups (`number`, `unit`) when the regex matches. -/
def findMatch : List Char → Option (List Char × List Char)
  | [] => none
  | c :: cs =>
    match matchAt (c :: cs) with
    | some r => some r
    | none => findMatch cs

/-- Model of `String.prototype.toLowerCase` on the ASCII range (the captured unit
consists of `[a-zA-Z]` characters only). -/
def lowerCh (c : Char) : Char :=
  if 65 ≤ c.toNat ∧ c.toNat ≤ 90 then Char.ofNat (c.toNat + 32) else c

/-- Model of `unit.replace(/s$/, '')`: drop one trailing `'s'` if present. -/
def stripS (l : List Char) : List Char :=
  match l.reverse with
  | 's' :: rest => rest.reverse
  | _ => l

/-- The *own* entries of the `multipliers` object literal of `src/index.js`
(milliseconds); `none` means the literal itself defines no such key.  The
full JS property read, which additionally sees the one key inherited from
`Object.prototype`, is `multipliersLookup` below. -/
def unitMultiplier (u : List Char) : Option Int :=
  if u = "minute".data then some 60000
  else if u = "hour".data then some 3600000
  else if u = "day".data then some 86400000
  else if u = "month".data then some 2592000000
  else if u = "year".data then some 31536000000
  else none

/-- Model of `parseTimeAgo` from `src/index.js`, with the wall-clock read
`const now = new Date()` made an explicit parameter `now` (milliseconds).
The second component records whether the `logger.error('Unknown time unit…')`
anomaly report was emitted.  The multiplier lookup here uses the table's own
entries only; `parseTimeAgoFull` below also models the key inherited from
`Object.prototype`, and `parseTimeAgoR_eq_full` proves the two models agree
whenever the normalized unit is not that inherited key. -/
def parseTimeAgoR (timeText : String) (now : Int) : Int × Bool :=
  match findMatch timeText.data with
  | none => (now, false)
  | some (ds, us) =>
    let value : Int := (digitsVal ds : Int)
    match unitMultiplier (stripS (us.map lowerCh)) with
    | none => (now, true)
    | some m => (now - value * m, false)

/-- The instant returned by `parseTimeAgo` of `src/index.js` (on the domain
where the lookup does not hit the inherited key). -/
def parseTimeAgo (timeText : String) (now : Int) : Int :=
  (parseTimeAgoR timeText now).1

/-- Outcome of the JS property read `multipliers[normalizedUnit]`. -/
inductive Looked
  | num (m : Int)
  | ctorFn
  | undef
deriving DecidableEq

/-- Model of the property read `multipliers[normalizedUnit]` (line 155 of
`src/index.js`) *including prototype inheritance*: `multipliers` is a plain
object literal, so the read also sees `Object.prototype`'s properties.  The
normalized unit is always a string of lowercase ASCII letters, and the only
`Object.prototype` property whose name is all lowercase letters is
`constructor` — its value, the `Object` constructor function, is truthy but
not a number.  Every other non-own key reads `undefined`. -/
def multipliersLookup (u : List Char) : Looked :=
  match unitMultiplier u with
  | some m => Looked.num m
  | none => if u = "constructor".data then Looked.ctorFn else Looked.undef

/-- Full model of `parseTimeAgo` from `src/index.js`, with the
inherited-key corner of the lookup included.  The instant is `none` for an
invalid Date: when the lookup yields the inherited constructor function,
the guard `if (!multiplier)` sees a truthy value and is skipped — so no
anomaly is logged — and `new Date(now - value * multiplier)` with a
non-number `multiplier` has a NaN time value. -/
def parseTimeAgoFull (timeText : String) (now : Int) : Option Int × Bool :=
  match findMatch timeText.data with
  | none => (some now, false)
  | some (ds, us) =>
    let value : Int := (digitsVal ds : Int)
    match multipliersLookup (stripS (us.map lowerCh)) with
    | Looked.num m => (some (now - value * m), false)
    | Looked.ctorFn => (none, false)
    | Looked.undef => (some now, true)

example : parseTimeAgoFull "5 constructors" 0 = (none, false) := by decide
example : parseTimeAgoFull "3 fortnights ago" 7 = (some 7, true) := by decide
example : parseTimeAgoFull "5 minutes" 0 = (some (-300000), false) := by decide

example : parseTimeAgo "5 minutes" 0 = -300000 := by decide
example : parseTimeAgo "3 hours ago" 1000 = 1000 - 3 * 3600000 := by decide
example : parseTimeAgoR "3 fortnights ago" 7 = (7, true) := by decide
example : parseTimeAgo "just now" 7 = 7 := by decide
example : parseTimeAgo "5 Minutes" 0 = -300000 := by decide

/-! ### The parser of the earlier variant `src/unnamed/part_000`
`parseTimeAgo` there is `parseInt(timeText)` followed by case-sensitive
`timeText.includes(unit)` checks in the order minute, hour, day, month, year. -/

/-- Value of one hexadecimal digit, `none` for a non-hex-digit character. -/
def hexDigitVal (c : Char) : Option Nat :=
  if 48 ≤ c.toNat ∧ c.toNat ≤ 57 then some (c.toNat - 48)
  else if 97 ≤ c.toNat ∧ c.toNat ≤ 102 then some (c.toNat - 87)
  else if 65 ≤ c.toNat ∧ c.toNat ≤ 70 then some (c.toNat - 55)
  else none

def isHexDigitCh (c : Char) : Bool := (hexDigitVal c).isSome

def hexDigitsVal (l : List Char) : Nat :=
  l.foldl (fun a c => a * 16 + (hexDigitVal c).getD 0) 0

/-- Does the character list start with the `0x`/`0X` header that switches
`parseInt` (with no radix argument) into hexadecimal mode? -/
def hexHdr : List Char → Bool
  | c1 :: c2 :: _ => c1 = '0' && (c2 = 'x' || c2 = 'X')
  | _ => false

/-- The digit-prefix step of `parseInt`: longest digit run at the head,
`none` (NaN) when it is empty. -/
def parseUnsigned (cs : List Char) : Option Nat :=
  if hexHdr cs then
    let hs := (cs.drop 2).takeWhile isHexDigitCh
    if hs.isEmpty then none else some (hexDigitsVal hs)
  else
    let ds := cs.takeWhile isDigitCh
    if ds.isEmpty then none else some (digitsVal ds)

/-- Model of `parseInt(s)` (radix unspecified): skip leading whitespace, optional
sign, then a digit prefix; `none` models NaN. -/
def jsParseInt (s : String) : Option Int :=
  match s.data.dropWhile isWsCh with
  | [] => none
  | c :: rest =>
    if c = '-' then (parseUnsigned rest).map (fun n => -(n : Int))
    else if c = '+' then (parseUnsigned rest).map (fun n => (n : Int))
    else (parseUnsigned (c :: rest)).map (fun n => (n : Int))

/-- Test that `needle` starts `hay` (character-by-character comparison). -/
def hasPre : List Char → List Char → Bool
  | [], _ => true
  | _ :: _, [] => false
  | a :: as, b :: bs => if a = b then hasPre as bs else false

/-- Model of `hay.includes(needle)`: `needle` occurs as a contiguous substring. -/
def containsSub (needle : List Char) : List Char → Bool
  | [] => hasPre needle []
  | c :: t => hasPre needle (c :: t) || containsSub needle t

/-- Model of `parseTimeAgo` from `src/unnamed/part_000`, with the wall-clock read made
the explicit parameter `now`.  Result `none` models an invalid Date: when
`parseInt` yields NaN and a unit substring matches, `new Date(now - NaN * m)`
is an invalid Date.  The final `return now` fallback is a valid Date. -/
def parseTimeAgoV2 (timeText : String) (now : Int) : Option Int :=
  let n? := jsParseInt timeText
  let app : Int → Option Int := fun m => n?.map (fun n => now - n * m)
  if containsSub "minute".data timeText.data then app 60000
  else if containsSub "hour".data timeText.data then app 3600000
  else if containsSub "day".data timeText.data then app 86400000
  else if containsSub "month".data timeText.data then app 2592000000
  else if containsSub "year".data timeText.data then app 31536000000
  else some now

example : parseTimeAgoV2 "5 minutes" 0 = some (-300000) := by decide
example : parseTimeAgoV2 "a day ago" 0 = none := by decide
example : parseTimeAgoV2 "just now" 7 = some 7 := by decide
example : parseTimeAgoV2 "5 Minutes" 0 = some 0 := by decide

/-! ### The ordering validator of `src/index.js` (lines 76–101) -/

/-- One collected article row. -/
structure Article where
  title : String
  timeText : String
  timestamp : Int
deriving DecidableEq

/-- One element of `sortingErrors`: the record pushed when an inversion is
found (`position`, the two articles, and `timeDiff` in rounded minutes). -/
structure SortErr where
  position : Nat
  article1 : Article
  article2 : Article
  timeDiff : Int
deriving DecidableEq

/-- Model of `Math.round((curr - prev) / 1000 / 60)`: round-half-up of `d` ms
expressed in minutes (`Math.round x = ⌊x + 1/2⌋`). -/
def roundMinutes (d : Int) : Int := Int.fdiv (d + 30000) 60000

/-- The verification loop of `src/index.js` lines 78–101, with `prev` the
article at index `i - 1` and `i` the loop counter: equal timestamps are
skipped, a strictly later current article records one `SortErr` and breaks. -/
def scanPairs (prev : Article) : List Article → Nat → Bool × List SortErr
  | [], _ => (true, [])
  | curr :: rest, i =>
    if curr.timestamp = prev.timestamp then scanPairs curr rest (i + 1)
    else if prev.timestamp < curr.timestamp then
      (false, [⟨i, prev, curr, roundMinutes (curr.timestamp - prev.timestamp)⟩])
    else scanPairs curr rest (i + 1)

/-- Computation of `isSorted` / `sortingErrors` over the collected `articles`
list (the loop starts at `i = 1`; empty and singleton lists never enter it). -/
def validateSorting : List Article → Bool × List SortErr
  | [] => (true, [])
  | a :: rest => scanPairs a rest 1

example : validateSorting [⟨"a", "5 minutes", -300000⟩, ⟨"b", "10 minutes", -600000⟩] = (true, []) := by decide
example : validateSorting [⟨"a", "5 minutes", -300000⟩, ⟨"b", "2 minutes", -120000⟩,
    ⟨"c", "1 hour", -3600000⟩] =
  (false, [⟨1, ⟨"a", "5 minutes", -300000⟩, ⟨"b", "2 minutes", -120000⟩, 3⟩]) := by decide
example : validateSorting [⟨"a", "10 minutes", -600000⟩, ⟨"b", "10 minutes", -600000⟩,
    ⟨"c", "1 hour", -3600000⟩] = (true, []) := by decide

/-! ### The `retry` utility of `src/index.js` (lines 23–34)
The wrapped operation is modelled as an oracle `fn : Nat → Except String α`
giving the outcome of its `i`-th invocation.  The result records the
returned/thrown value (`none` models the fall-through `undefined` when
`retries = 0`) together with the list of back-off sleeps performed, in
order. -/

deriving instance DecidableEq for Except

/-- The `for` loop of `retry`, at loop counter `i` with `fuel = retries - i`
iterations still allowed (`fuel = 0` is the loop condition `i < retries`
failing, i.e. the `undefined` fall-through; on a caught error, `fuel = 1`
is the `i === retries - 1` re-throw case). -/
def retryAux {α : Type} (fn : Nat → Except String α) (delay : Nat) :
    Nat → Nat → Option (Except String α) × List Nat
  | _, 0 => (none, [])
  | i, fuel + 1 =>
    match fn i with
    | Except.ok a => (some (Except.ok a), [])
    | Except.error e =>
      if fuel = 0 then (some (Except.error e), [])
      else
        let r := retryAux fn delay (i + 1) fuel
        (r.1, delay * 2 ^ i :: r.2)

/-- Model of `retry(fn, retries)` with `CONFIG.retryDelay = delay`. -/
def retry {α : Type} (fn : Nat → Except String α) (retries delay : Nat) :
    Option (Except String α) × List Nat :=
  retryAux fn delay 0 retries

example : retry (fun i => if i = 0 then Except.error "x" else Except.ok (5 : Nat)) 3 1000 =
    (some (Except.ok 5), [1000]) := by decide
example : retry (fun i => (Except.error (toString i) : Except String Nat)) 3 1000 =
    (some (Except.error "2"), [1000, 2000]) := by decide

/-- Lines 52 and 58 of `src/index.js`: `retry(() => page.goto(...))`
followed by `retry(() => page.locator('tr.athing').all())` — *both* calls
go through `retry` with the default `CONFIG.maxRetries = 3` and
`CONFIG.retryDelay = 1000`.  Returns the outcome of the phase and the
concatenated back-off sleeps. -/
def navAndLocate {α : Type} (gotoRes : Nat → Except String Unit)
    (rowsRes : Nat → Except String α) : Option (Except String α) × List Nat :=
  match retry gotoRes 3 1000 with
  | (some (Except.ok _), d1) =>
    let r := retry rowsRes 3 1000
    (r.1, d1 ++ r.2)
  | (some (Except.error e), d1) => (some (Except.error e), d1)
  | (none, d1) => (none, d1)

/-! ### The wall clock
`new Date()` / `Date.now()` reads are modelled by an oracle
`t : Nat → Int` (the instant returned by the `s`-th read) together with a
read counter threaded through the computation. -/

/-- A call of `parseTimeAgo(timeText)` as written in `src/index.js`: the
function itself performs one clock read (`const now = new Date()`, line
137) and parses against that instant. -/
def parseTimeAgoClk (t : Nat → Int) (timeText : String) (s : Nat) : Int × Nat :=
  (parseTimeAgo timeText (t s), s + 1)

/-- The collection loop's `timestamp: parseTimeAgo(timeText)` calls (line
69 of `src/index.js`), one per collected row, in row order: returns the
parsed instants and the final clock-read counter. -/
def collectTimestamps (t : Nat → Int) : List String → Nat → List Int × Nat
  | [], s => ([], s)
  | lab :: rest, s =>
    let p := parseTimeAgoClk t lab s
    let r := collectTimestamps t rest p.2
    (p.1 :: r.1, r.2)

example : collectTimestamps (fun n => (n : Int)) ["5 minutes", "5 minutes"] 0 =
    ([-300000, -299999], 2) := by decide

/-! ### The run skeleton of `validateHNSorting` (`src/index.js` lines 43–134)
External effects are oracles; the trace records the resource-relevant
events (screenshot attempts and the `finally` block's `browser.close()`). -/

inductive Ev
  | screenshot
  | close
deriving DecidableEq

/-- Outcomes of the external calls made during one run.  A raw row is
`Except String (String × String)`: the title/time-label extraction of one
row, which can throw (`textContent` on a missing element). -/
structure Oracles where
  gotoRes : Nat → Except String Unit
  rowsRes : Nat → Except String (List (Except String (String × String)))
  shotFail : Except String String
  clock : Nat → Int

/-- The per-row extraction loop: the first throwing row aborts the whole
run (there is no per-row recovery in the source). -/
def extractAll : List (Except String (String × String)) →
    Except String (List (String × String))
  | [] => Except.ok []
  | Except.error e :: _ => Except.error e
  | Except.ok p :: rest => (extractAll rest).map (p :: ·)

/-- Model of `articles.push` with `timestamp: parseTimeAgo(timeText)`
over the extracted rows, threading the clock-read counter. -/
def buildArticles (t : Nat → Int) : List (String × String) → Nat → List Article
  | [], _ => []
  | (ti, tx) :: rest, s =>
    ⟨ti, tx, parseTimeAgo tx (t s)⟩ :: buildArticles t rest (s + 1)

/-- The `try` block of `validateHNSorting` in `src/index.js`: navigation
(retried), row location (retried), extraction (capped at
`CONFIG.articleLimit = 100`), parsing, validation, and on a failed
validation a screenshot whose own failure propagates.  The `none` branch
of `navAndLocate` (the `retries = 0` fall-through) is unreachable here
because both retries use `retries = 3`. -/
def runBody (o : Oracles) : Except String Unit × List Ev :=
  match (navAndLocate o.gotoRes o.rowsRes).1 with
  | none => (Except.ok (), [])
  | some (Except.error e) => (Except.error e, [])
  | some (Except.ok rawRows) =>
    match extractAll (rawRows.take 100) with
    | Except.error e => (Except.error e, [])
    | Except.ok pairs =>
      let articles := buildArticles o.clock pairs 0
      if (validateSorting articles).1 then (Except.ok (), [])
      else
        match o.shotFail with
        | Except.ok _ => (Except.ok (), [Ev.screenshot])
        | Except.error e => (Except.error e, [Ev.screenshot])

/-- Model of `validateHNSorting` from `src/index.js` with its `catch` (best-effort
error screenshot, swallowing the screenshot's own failure, then re-throw)
and `finally` (`await browser.close()`). -/
def runModel (o : Oracles) : Except String Unit × List Ev :=
  match runBody o with
  | (Except.ok _, evs) => (Except.ok (), evs ++ [Ev.close])
  | (Except.error e, evs) => (Except.error e, evs ++ [Ev.screenshot] ++ [Ev.close])

/-- Model of `validateHNSorting` from `src/unnamed/part_000`: no retries, no
screenshots; the `catch` block only logs, so the promise always resolves;
the `finally` block closes the browser. -/
def runModelV2 (o : Oracles) : Except String Unit × List Ev :=
  let body : Except String Unit :=
    match o.gotoRes 0 with
    | Except.error e => Except.error e
    | Except.ok _ =>
      match o.rowsRes 0 with
      | Except.error e => Except.error e
      | Except.ok raw =>
        match extractAll (raw.take 100) with
        | Except.error e => Except.error e
        | Except.ok _ => Except.ok ()
  match body with
  | Except.ok _ => (Except.ok (), [Ev.close])
  | Except.error _ => (Except.ok (), [Ev.close])

/-! ## Helper lemmas -/

theorem digit_range {c : Char} (h : isDigitCh c = true) : 48 ≤ c.toNat ∧ c.toNat ≤ 57 := by
  simpa [isDigitCh] using h

theorem alpha_range {c : Char}
    (h : isAlphaCh c = true) :
    (65 ≤ c.toNat ∧ c.toNat ≤ 90) ∨ (97 ≤ c.toNat ∧ c.toNat ≤ 122) := by
  simpa [isAlphaCh] using h

theorem alpha_not_ws {c : Char} (h : isAlphaCh c = true) : isWsCh c = false := by
  have := alpha_range h
  simp [isWsCh, wsCodes]
  omega

theorem digit_not_ws {c : Char} (h : isDigitCh c = true) : isWsCh c = false := by
  have := digit_range h
  simp [isWsCh, wsCodes]
  omega

theorem alpha_not_digit {c : Char} (h : isAlphaCh c = true) : isDigitCh c = false := by
  have := alpha_range h
  simp [isDigitCh]
  omega

theorem ne_of_toNat_ne {c d : Char} (h : c.toNat ≠ d.toNat) : c ≠ d :=
  fun he => h (congrArg Char.toNat he)

theorem takeWhile_app_of {α : Type} (p : α → Bool) (l1 l2 : List α)
    (h1 : ∀ a ∈ l1, p a = true) (h2 : ∀ c, l2.head? = some c → p c = false) :
    (l1 ++ l2).takeWhile p = l1 := by
  induction l1 with
  | nil =>
    cases l2 with
    | nil => rfl
    | cons c t => simp [List.takeWhile, h2 c rfl]
  | cons a l1 ih =>
    have ha := h1 a (List.mem_cons_self a l1)
    simp only [List.cons_append, List.takeWhile, ha, List.append_eq]
    rw [ih (fun x hx => h1 x (List.mem_cons_of_mem a hx))]

theorem dropWhile_app_of {α : Type} (p : α → Bool) (l1 l2 : List α)
    (h1 : ∀ a ∈ l1, p a = true) (h2 : ∀ c, l2.head? = some c → p c = false) :
    (l1 ++ l2).dropWhile p = l2 := by
  induction l1 with
  | nil =>
    cases l2 with
    | nil => rfl
    | cons c t => simp [List.dropWhile, h2 c rfl]
  | cons a l1 ih =>
    have ha := h1 a (List.mem_cons_self a l1)
    simp only [List.cons_append, List.dropWhile, ha]
    exact ih (fun x hx => h1 x (List.mem_cons_of_mem a hx))

theorem findMatch_none (cs : List Char) (h : ∀ c ∈ cs, isDigitCh c = false) :
    findMatch cs = none := by
  induction cs with
  | nil => rfl
  | cons c t ih =>
    have hc := h c (List.mem_cons_self c t)
    have hm : matchAt (c :: t) = none := by
      unfold matchAt
      simp [List.takeWhile, hc]
    rw [findMatch, hm]
    exact ih (fun x hx => h x (List.mem_cons_of_mem c hx))

theorem matchAt_lead (ds u rest : List Char) (hds : ds ≠ [])
    (hd : ∀ c ∈ ds, isDigitCh c = true) (hu : u ≠ [])
    (hua : ∀ c ∈ u, isAlphaCh c = true)
    (hr : ∀ c, rest.head? = some c → isAlphaCh c = false) :
    matchAt (ds ++ ' ' :: (u ++ rest)) = some (ds, u) := by
  have hsp : ∀ c, (' ' :: (u ++ rest)).head? = some c → isDigitCh c = false := by
    intro c hc
    simp at hc
    subst hc
    decide
  have htake : (ds ++ ' ' :: (u ++ rest)).takeWhile isDigitCh = ds :=
    takeWhile_app_of _ _ _ hd hsp
  have hdrop : (ds ++ ' ' :: (u ++ rest)).dropWhile isDigitCh = ' ' :: (u ++ rest) :=
    dropWhile_app_of _ _ _ hd hsp
  have huw : ∀ c, (u ++ rest).head? = some c → isWsCh c = false := by
    intro c hc
    cases u with
    | nil => exact absurd rfl hu
    | cons a u' =>
      simp at hc
      subst hc
      exact alpha_not_ws (hua a (List.mem_cons_self a u'))
  have hdrop2 : ((' ' :: []) ++ (u ++ rest)).dropWhile isWsCh = u ++ rest :=
    dropWhile_app_of _ _ _ (by intro a ha; simp at ha; subst ha; decide) huw
  have htake2 : (u ++ rest).takeWhile isAlphaCh = u :=
    takeWhile_app_of _ _ _ hua hr
  simp only [List.singleton_append] at hdrop2
  unfold matchAt
  simp only [htake, hdrop, hdrop2, htake2]
  cases ds with
  | nil => exact absurd rfl hds
  | cons d ds' =>
    cases u with
    | nil => exact absurd rfl hu
    | cons a u' => simp [List.isEmpty]

theorem findMatch_lead (ds u rest : List Char) (hds : ds ≠ [])
    (hd : ∀ c ∈ ds, isDigitCh c = true) (hu : u ≠ [])
    (hua : ∀ c ∈ u, isAlphaCh c = true)
    (hr : ∀ c, rest.head? = some c → isAlphaCh c = false) :
    findMatch (ds ++ ' ' :: (u ++ rest)) = some (ds, u) := by
  have hm := matchAt_lead ds u rest hds hd hu hua hr
  cases ds with
  | nil => exact absurd rfl hds
  | cons d ds' =>
    rw [List.cons_append] at hm ⊢
    rw [findMatch, hm]

/-- Evaluation of the `src/index.js` parser on a label of the form
`<digits> <unit><rest>` whose normalized unit is in the multiplier table. -/
theorem parseTimeAgoR_known (ds u rest : List Char) (now m : Int) (hds : ds ≠ [])
    (hd : ∀ c ∈ ds, isDigitCh c = true) (hu : u ≠ [])
    (hua : ∀ c ∈ u, isAlphaCh c = true)
    (hr : ∀ c, rest.head? = some c → isAlphaCh c = false)
    (hm : unitMultiplier (stripS (u.map lowerCh)) = some m) :
    parseTimeAgoR (String.mk (ds ++ ' ' :: (u ++ rest))) now =
      (now - (digitsVal ds : Int) * m, false) := by
  unfold parseTimeAgoR
  rw [show (String.mk (ds ++ ' ' :: (u ++ rest))).data = ds ++ ' ' :: (u ++ rest) from rfl]
  rw [findMatch_lead ds u rest hds hd hu hua hr]
  simp [hm]

theorem mem_of_mem_dropWhile {α : Type} (p : α → Bool) {c : α} :
    ∀ {l : List α}, c ∈ l.dropWhile p → c ∈ l := by
  intro l
  induction l with
  | nil => intro h; simp at h
  | cons a t ih =>
    intro h
    rw [List.dropWhile] at h
    by_cases hp : p a
    · simp only [hp] at h
      exact List.mem_cons_of_mem a (ih h)
    · simp only [Bool.not_eq_true] at hp
      simp only [hp] at h
      exact h

theorem parseUnsigned_none (l : List Char) (h : ∀ x ∈ l, isDigitCh x = false) :
    parseUnsigned l = none := by
  have hh : hexHdr l = false := by
    cases l with
    | nil => rfl
    | cons c1 t =>
      cases t with
      | nil => rfl
      | cons c2 t' =>
        have h1 := h c1 (List.mem_cons_self c1 _)
        have : c1 ≠ '0' := by
          intro he
          rw [he] at h1
          simp [isDigitCh] at h1
        simp [hexHdr, this]
  have ht : l.takeWhile isDigitCh = [] := by
    cases l with
    | nil => rfl
    | cons c t => simp [List.takeWhile, h c (List.mem_cons_self c t)]
  unfold parseUnsigned
  rw [hh]
  simp [ht]

theorem jsParseInt_none (s : String) (h : ∀ c ∈ s.data, isDigitCh c = false) :
    jsParseInt s = none := by
  unfold jsParseInt
  cases hdw : s.data.dropWhile isWsCh with
  | nil => rfl
  | cons c rest =>
    have hmem : ∀ x ∈ c :: rest, isDigitCh x = false := by
      intro x hx
      exact h x (mem_of_mem_dropWhile isWsCh (hdw ▸ hx))
    have hrest : ∀ x ∈ rest, isDigitCh x = false :=
      fun x hx => hmem x (List.mem_cons_of_mem c hx)
    by_cases hc1 : c = '-'
    · simp [hc1, parseUnsigned_none rest hrest]
    · by_cases hc2 : c = '+'
      · simp [hc1, hc2, parseUnsigned_none rest hrest]
      · simp [hc1, hc2, parseUnsigned_none (c :: rest) hmem]

theorem dropWhile_cons_neg {α : Type} (p : α → Bool) (a : α) (l : List α)
    (h : p a = false) : (a :: l).dropWhile p = a :: l := by
  simp [List.dropWhile, h]

theorem jsParseInt_digits (ds t : List Char) (hds : ds ≠ [])
    (hd : ∀ c ∈ ds, isDigitCh c = true)
    (ht : ∀ c, t.head? = some c → isDigitCh c = false ∧ c ≠ 'x' ∧ c ≠ 'X') :
    jsParseInt (String.mk (ds ++ t)) = some (digitsVal ds : Int) := by
  cases ds with
  | nil => exact absurd rfl hds
  | cons d ds' =>
    have hdd : isDigitCh d = true := hd d (List.mem_cons_self d ds')
    have hdr := digit_range hdd
    have htd : ∀ c, t.head? = some c → isDigitCh c = false := fun c hc => (ht c hc).1
    have hminus : ¬ (d = '-') := ne_of_toNat_ne (by
      have : ('-').toNat = 45 := rfl
      omega)
    have hplus : ¬ (d = '+') := ne_of_toNat_ne (by
      have : ('+').toNat = 43 := rfl
      omega)
    have hpu : parseUnsigned (d :: (ds' ++ t)) = some (digitsVal (d :: ds')) := by
      have hh : hexHdr (d :: (ds' ++ t)) = false := by
        cases ds' with
        | nil =>
          cases t with
          | nil => rfl
          | cons c t' =>
            obtain ⟨_, hx, hX⟩ := ht c rfl
            simp [hexHdr, hx, hX]
        | cons d2 ds'' =>
          have h2 := digit_range (hd d2 (List.mem_cons_of_mem d (List.mem_cons_self d2 ds'')))
          have hx : ¬ (d2 = 'x') := ne_of_toNat_ne (by
            have : ('x').toNat = 120 := rfl
            omega)
          have hX : ¬ (d2 = 'X') := ne_of_toNat_ne (by
            have : ('X').toNat = 88 := rfl
            omega)
          simp [hexHdr, hx, hX]
      have htw : ((d :: ds') ++ t).takeWhile isDigitCh = d :: ds' :=
        takeWhile_app_of _ _ _ hd htd
      rw [List.cons_append] at htw
      unfold parseUnsigned
      rw [hh]
      simp [htw]
    unfold jsParseInt
    rw [show (String.mk ((d :: ds') ++ t)).data = (d :: ds') ++ t from rfl,
      List.cons_append,
      dropWhile_cons_neg isWsCh d (ds' ++ t) (digit_not_ws hdd)]
    simp [hminus, hplus, hpu]

theorem hasPre_self_app (n t : List Char) : hasPre n (n ++ t) = true := by
  induction n with
  | nil => rfl
  | cons a as ih => simp [hasPre, ih]

theorem containsSub_nil_needle (hay : List Char) : containsSub [] hay = true := by
  cases hay <;> simp [containsSub, hasPre]

theorem containsSub_self_app (pre n t : List Char) :
    containsSub n (pre ++ (n ++ t)) = true := by
  induction pre with
  | nil =>
    cases n with
    | nil => simpa using containsSub_nil_needle t
    | cons a as => simp [containsSub, hasPre, hasPre_self_app]
  | cons p pre' ih => simp [containsSub, ih]

theorem containsSub_cons_ne (c0 : Char) (n1 : List Char) (c : Char) (t : List Char)
    (hne : ¬ (c0 = c)) : containsSub (c0 :: n1) (c :: t) = containsSub (c0 :: n1) t := by
  simp [containsSub, hasPre, hne]

/-- A needle starting with a letter occurs in `<digits> <u>` iff it occurs
in `u`. -/
theorem containsSub_digits_space (c0 : Char) (n1 : List Char) (h0 : isAlphaCh c0 = true)
    (ds u : List Char) (hd : ∀ c ∈ ds, isDigitCh c = true) :
    containsSub (c0 :: n1) (ds ++ ' ' :: u) = containsSub (c0 :: n1) u := by
  have h0r := alpha_range h0
  induction ds with
  | nil =>
    have : ¬ (c0 = ' ') := ne_of_toNat_ne (by
      have : (' ').toNat = 32 := rfl
      omega)
    simpa using containsSub_cons_ne c0 n1 ' ' u this
  | cons d ds' ih =>
    have hdr := digit_range (hd d (List.mem_cons_self d ds'))
    have hne : ¬ (c0 = d) := ne_of_toNat_ne (by omega)
    rw [List.cons_append, containsSub_cons_ne c0 n1 d _ hne]
    exact ih (fun c hc => hd c (List.mem_cons_of_mem d hc))

/-- Evaluation of the `src/unnamed/part_000` parser on a label of the form
`<digits> <u>`: `parseInt` reads the digit magnitude and the case-sensitive
`includes` tests only see the tail `u`. -/
theorem parseTimeAgoV2_eval (ds u : List Char) (now : Int) (hds : ds ≠ [])
    (hd : ∀ c ∈ ds, isDigitCh c = true) :
    parseTimeAgoV2 (String.mk (ds ++ ' ' :: u)) now =
      (if containsSub "minute".data u then some (now - (digitsVal ds : Int) * 60000)
       else if containsSub "hour".data u then some (now - (digitsVal ds : Int) * 3600000)
       else if containsSub "day".data u then some (now - (digitsVal ds : Int) * 86400000)
       else if containsSub "month".data u then some (now - (digitsVal ds : Int) * 2592000000)
       else if containsSub "year".data u then some (now - (digitsVal ds : Int) * 31536000000)
       else some now) := by
  have hjs : jsParseInt (String.mk (ds ++ ' ' :: u)) = some (digitsVal ds : Int) := by
    have := jsParseInt_digits ds (' ' :: u) hds hd (by
      intro c hc
      simp at hc
      subst hc
      refine ⟨by decide, by decide, by decide⟩)
    simpa using this
  have hdata : (String.mk (ds ++ ' ' :: u)).data = ds ++ ' ' :: u := rfl
  have h1 := containsSub_digits_space 'm' "inute".data (by decide) ds u hd
  have h2 := containsSub_digits_space 'h' "our".data (by decide) ds u hd
  have h3 := containsSub_digits_space 'd' "ay".data (by decide) ds u hd
  have h4 := containsSub_digits_space 'm' "onth".data (by decide) ds u hd
  have h5 := containsSub_digits_space 'y' "ear".data (by decide) ds u hd
  unfold parseTimeAgoV2
  rw [hjs, hdata]
  rw [show ("minute".data : List Char) = 'm' :: "inute".data from rfl,
    show ("hour".data : List Char) = 'h' :: "our".data from rfl,
    show ("day".data : List Char) = 'd' :: "ay".data from rfl,
    show ("month".data : List Char) = 'm' :: "onth".data from rfl,
    show ("year".data : List Char) = 'y' :: "ear".data from rfl]
  rw [h1, h2, h3, h4, h5]
  rfl

/-- The scan loop returns `(true, [])` on a non-increasing chain. -/
theorem scanPairs_chain (rest : List Article) :
    ∀ (prev : Article) (i : Nat),
      List.Chain' (fun x y => y.timestamp ≤ x.timestamp) (prev :: rest) →
      scanPairs prev rest i = (true, []) := by
  induction rest with
  | nil => intro prev i _; rfl
  | cons curr t ih =>
    intro prev i h
    rw [List.chain'_cons] at h
    obtain ⟨hle, hch⟩ := h
    unfold scanPairs
    by_cases he : curr.timestamp = prev.timestamp
    · simp only [he, if_true, if_pos rfl]
      exact ih curr (i + 1) hch
    · have hnlt : ¬ (prev.timestamp < curr.timestamp) := not_lt.mpr hle
      simp only [he, if_false, hnlt, if_neg he, if_neg hnlt]
      exact ih curr (i + 1) hch

/-- The scan loop finds the first strict increase after a non-increasing
stretch, records exactly one error for it (with the running index), and
ignores whatever follows. -/
theorem scanPairs_first_inv (mid : List Article) :
    ∀ (prev a b : Article) (s : List Article) (i : Nat),
      List.Chain' (fun x y => y.timestamp ≤ x.timestamp) (prev :: (mid ++ [a])) →
      a.timestamp < b.timestamp →
      scanPairs prev (mid ++ a :: b :: s) i =
        (false, [⟨i + mid.length + 1, a, b, roundMinutes (b.timestamp - a.timestamp)⟩]) := by
  induction mid with
  | nil =>
    intro prev a b s i hch hab
    rw [List.nil_append, List.chain'_cons] at hch
    obtain ⟨hle, _⟩ := hch
    have hne : ¬ (b.timestamp = a.timestamp) := by omega
    have hstep : scanPairs a (b :: s) (i + 1) =
        (false, [⟨i + 1, a, b, roundMinutes (b.timestamp - a.timestamp)⟩]) := by
      unfold scanPairs
      simp [hne, hab]
    rw [List.nil_append]
    unfold scanPairs
    by_cases he : a.timestamp = prev.timestamp
    · simp only [he, if_pos rfl]
      rw [he] at hstep
      simpa using hstep
    · have hnlt : ¬ (prev.timestamp < a.timestamp) := not_lt.mpr hle
      simp only [if_neg he, if_neg hnlt]
      simpa using hstep
  | cons c mid' ih =>
    intro prev a b s i hch hab
    rw [List.cons_append, List.chain'_cons] at hch
    obtain ⟨hle, hch'⟩ := hch
    have h2 := ih c a b s (i + 1) hch' hab
    have hidx : (i + 1) + mid'.length + 1 = i + (c :: mid').length + 1 := by
      simp
      omega
    rw [hidx] at h2
    rw [List.cons_append]
    unfold scanPairs
    by_cases he : c.timestamp = prev.timestamp
    · simp only [he, if_pos rfl]
      exact h2
    · have hnlt : ¬ (prev.timestamp < c.timestamp) := not_lt.mpr hle
      simp only [if_neg he, if_neg hnlt]
      exact h2

/-- One clock read happens per collected row: entry `i` is parsed against
the `(s + i)`-th clock reading. -/
theorem collectTimestamps_eval (t : Nat → Int) (labels : List String) :
    ∀ s : Nat,
      collectTimestamps t labels s =
        (labels.mapIdx (fun i lab => parseTimeAgo lab (t (s + i))), s + labels.length) := by
  induction labels with
  | nil => intro s; simp [collectTimestamps]
  | cons lab rest ih =>
    intro s
    rw [List.mapIdx_cons]
    simp only [collectTimestamps, parseTimeAgoClk]
    rw [ih (s + 1)]
    have hfe : (fun i l => parseTimeAgo l (t (s + 1 + i))) =
        (fun i l => parseTimeAgo l (t (s + (i + 1)))) := by
      funext i l
      rw [show s + 1 + i = s + (i + 1) from by omega]
    simp [parseTimeAgoClk, hfe]
    omega

/-- Every exit of `runBody` carries either no event or exactly the one
failure-screenshot attempt. -/
theorem runBody_evs (o : Oracles) :
    (runBody o).2 = [] ∨ (runBody o).2 = [Ev.screenshot] := by
  unfold runBody
  rcases hnav : (navAndLocate o.gotoRes o.rowsRes).1 with _ | r
  · simp
  rcases r with e | rows
  · simp
  rcases hx : extractAll (rows.take 100) with e | pairs
  · simp [hx]
  by_cases hv : (validateSorting (buildArticles o.clock pairs 0)).1
  · simp [hx, hv]
  · rcases hs : o.shotFail with e | n <;> simp [hx, hv, hs]

/-- Exhausting all three attempts: the loop sleeps the base delay, then its
double, and throws the error of the last attempt. -/
theorem retry_all_fail {α : Type} (d : Nat) (fn : Nat → Except String α)
    (e : Nat → String) (h : ∀ i, i < 3 → fn i = Except.error (e i)) :
    retry fn 3 d = (some (Except.error (e 2)), [d, d * 2]) := by
  simp [retry, retryAux, h 0 (by norm_num), h 1 (by norm_num), h 2 (by norm_num)]

/-! ## Claims -/

/-- C1: for every label of the form `<digits> <unit-word><rest>` (`rest`
not beginning with a letter, so the regex `(\d+)\s*([a-zA-Z]+)` captures
the digits and the unit word) whose unit word, after lower-casing and
stripping one trailing `s`, is in the multiplier table (minute → 60000,
hour → 3600000, day → 86400000, month → 2592000000, year → 31536000000
milliseconds, per `unitMultiplier`), and for every reference instant
`now`, `parseTimeAgo` returns exactly `now - magnitude * multiplier`. -/
theorem C1_parse_recognized_unit (ds u rest : List Char) (now m : Int)
    (hds : ds ≠ []) (hd : ∀ c ∈ ds, isDigitCh c = true)
    (hu : u ≠ []) (hua : ∀ c ∈ u, isAlphaCh c = true)
    (hr : ∀ c, rest.head? = some c → isAlphaCh c = false)
    (hm : unitMultiplier (stripS (u.map lowerCh)) = some m) :
    parseTimeAgo (String.mk (ds ++ ' ' :: (u ++ rest))) now =
      now - (digitsVal ds : Int) * m := by
  unfold parseTimeAgo
  rw [parseTimeAgoR_known ds u rest now m hds hd hu hua hr hm]

/-- Witness for C1: the label `"5 minutes ago"` at `now = 900000`. -/
theorem C1_witness : parseTimeAgo "5 minutes ago" 900000 = 600000 := by
  have h := C1_parse_recognized_unit ['5'] "minutes".data (' ' :: "ago".data) 900000 60000
    (by decide) (by decide) (by decide) (by decide)
    (by intro c hc; simp at hc; subst hc; decide) (by decide)
  have h5 : (digitsVal ['5'] : Int) = 5 := by decide
  rw [h5] at h
  norm_num at h
  exact h

/-- C2: `validateSorting` returns `sorted = true` and records no inversion
on every sequence whose adjacent pairs are non-increasing in instant (ties
allowed — they are skipped), including sequences of length 0 and 1. -/
theorem C2_nonincreasing_sorted (l : List Article)
    (h : List.Chain' (fun x y => y.timestamp ≤ x.timestamp) l) :
    validateSorting l = (true, []) := by
  cases l with
  | nil => rfl
  | cons a rest => exact scanPairs_chain rest a 1 h

/-- Witness for C2: three articles with non-increasing instants (including
a tie). -/
theorem C2_witness :
    validateSorting [⟨"s1", "5 minutes", -300000⟩, ⟨"s2", "5 minutes", -300000⟩,
      ⟨"s3", "1 hour", -3600000⟩] = (true, []) :=
  C2_nonincreasing_sorted _ (by norm_num [List.chain'_cons])

/-- C3: on every sequence `init ++ a :: b :: s` whose prefix `init ++ [a]`
is non-increasing (no earlier inversion) and whose first inversion is the
adjacent pair `(a, b)` — i.e. the first index whose entry is strictly later
than its predecessor is `k = init.length + 1` — `validateSorting` returns
`sorted = false` with exactly one recorded inversion, at position `k`,
carrying both entries and their delta in rounded minutes; the result is
the same for every suffix `s`, so no pair beyond index `k` is scanned. -/
theorem C3_first_inversion (init : List Article) (a b : Article)
    (hch : List.Chain' (fun x y => y.timestamp ≤ x.timestamp) (init ++ [a]))
    (hab : a.timestamp < b.timestamp) :
    ∀ s : List Article,
      validateSorting (init ++ a :: b :: s) =
        (false, [⟨init.length + 1, a, b, roundMinutes (b.timestamp - a.timestamp)⟩]) := by
  intro s
  cases init with
  | nil =>
    have hne : ¬ (b.timestamp = a.timestamp) := by omega
    show scanPairs a (b :: s) 1 = _
    unfold scanPairs
    simp [hne, hab]
  | cons c init' =>
    rw [List.cons_append] at hch
    have h := scanPairs_first_inv init' c a b s 1 hch hab
    have hidx : 1 + init'.length + 1 = (c :: init').length + 1 := by
      simp
      omega
    rw [hidx] at h
    rw [List.cons_append]
    exact h

/-- Witness for C3: inversion at position 2 with a 58-minute delta. -/
theorem C3_witness :
    validateSorting [⟨"t1", "10 minutes", -600000⟩, ⟨"t2", "1 hour", -3600000⟩,
      ⟨"t3", "2 minutes", -120000⟩] =
    (false, [⟨2, ⟨"t2", "1 hour", -3600000⟩, ⟨"t3", "2 minutes", -120000⟩, 58⟩]) := by
  have h := C3_first_inversion [⟨"t1", "10 minutes", -600000⟩]
    ⟨"t2", "1 hour", -3600000⟩ ⟨"t3", "2 minutes", -120000⟩
    (by norm_num [List.chain'_cons]) (by norm_num) []
  have hr : roundMinutes ((-120000 : Int) - (-3600000)) = 58 := by decide
  rw [hr] at h
  simpa using h

/-- The restricted model `parseTimeAgoR` agrees with the full model
`parseTimeAgoFull` on every label whose matched, normalized unit is not the
inherited key `constructor` (in particular on all labels the regex does not
match at all). -/
theorem parseTimeAgoR_eq_full (t : String) (now : Int)
    (h : ∀ ds us, findMatch t.data = some (ds, us) →
      stripS (us.map lowerCh) ≠ "constructor".data) :
    parseTimeAgoFull t now = (some (parseTimeAgo t now), (parseTimeAgoR t now).2) := by
  unfold parseTimeAgoFull parseTimeAgo parseTimeAgoR multipliersLookup
  cases hm : findMatch t.data with
  | none => rfl
  | some p =>
    obtain ⟨ds, us⟩ := p
    have hne := h ds us hm
    cases hu : unitMultiplier (stripS (us.map lowerCh)) with
    | some m => simp [hu]
    | none => simp [hu, hne]

/-- C4 counterexample: the claim is false on its quantified domain.  On the
label `"5 constructors"` the normalized unit `constructor` is not one of the
five table units, yet `multipliers['constructor']` reads the truthy
`Object.prototype.constructor`, so the anomaly guard `if (!multiplier)` is
skipped — nothing is reported — and `new Date(now - 5 * Object)` is an
invalid Date, not `now`. -/
theorem C4_counterexample :
    parseTimeAgoFull "5 constructors" 0 = (none, false) ∧
      parseTimeAgoFull "5 constructors" 0 ≠ (some 0, true) := by
  decide

/-- C4 (amended): for every label of the form `<digits> <unit-word><rest>`
whose normalized unit word reads as `undefined` from the `multipliers`
object — not one of the five units *and* not the key `constructor`
inherited from `Object.prototype` — the parser returns exactly `now` with
the unknown-unit anomaly reported, and the run continues; when the
normalized unit is the inherited key `constructor`, the truthy inherited
property skips the anomaly log and the parser returns an invalid (NaN)
instant instead of `now`, also returning normally (non-fatal). -/
theorem C4_unknown_unit_lookup (ds u rest : List Char) (now : Int)
    (hds : ds ≠ []) (hd : ∀ c ∈ ds, isDigitCh c = true)
    (hu : u ≠ []) (hua : ∀ c ∈ u, isAlphaCh c = true)
    (hr : ∀ c, rest.head? = some c → isAlphaCh c = false) :
    (multipliersLookup (stripS (u.map lowerCh)) = Looked.undef →
      parseTimeAgoFull (String.mk (ds ++ ' ' :: (u ++ rest))) now = (some now, true)) ∧
    (stripS (u.map lowerCh) = "constructor".data →
      parseTimeAgoFull (String.mk (ds ++ ' ' :: (u ++ rest))) now = (none, false)) := by
  have hfm : findMatch (ds ++ ' ' :: (u ++ rest)) = some (ds, u) :=
    findMatch_lead ds u rest hds hd hu hua hr
  have hdata : (String.mk (ds ++ ' ' :: (u ++ rest))).data = ds ++ ' ' :: (u ++ rest) := rfl
  constructor
  · intro hl
    unfold parseTimeAgoFull
    rw [hdata, hfm]
    simp [hl]
  · intro hc
    have hlc : multipliersLookup (stripS (u.map lowerCh)) = Looked.ctorFn := by
      rw [hc]
      decide
    unfold parseTimeAgoFull
    rw [hdata, hfm]
    simp [hlc]

/-- Witness for C4: the undefined-key case at `"3 fortnights ago"` and the
inherited-key case at `"5 constructors"`. -/
theorem C4_witness :
    parseTimeAgoFull "3 fortnights ago" 12345 = (some 12345, true) ∧
      parseTimeAgoFull "5 constructors" 7 = (none, false) := by
  constructor
  · exact (C4_unknown_unit_lookup ['3'] "fortnights".data (' ' :: "ago".data) 12345
      (by decide) (by decide) (by decide) (by decide)
      (by intro c hc; simp at hc; subst hc; decide)).1 (by decide)
  · exact (C4_unknown_unit_lookup ['5'] "constructors".data [] 7
      (by decide) (by decide) (by decide) (by decide)
      (by intro c hc; simp at hc)).2 (by decide)

/-- C5 counterexample: the claim asserts that *parse* — the claim cites the
parser of both script variants — returns exactly `now` on every label with
no digit.  For the `src/unnamed/part_000` parser and the digitless label
`"a day ago"`, `parseInt` yields NaN, `includes('day')` matches, and
`new Date(now - NaN * 86400000)` is an invalid Date (modelled `none`),
not `now`. -/
theorem C5_counterexample :
    parseTimeAgoV2 "a day ago" 0 = none ∧ parseTimeAgoV2 "a day ago" 0 ≠ some 0 := by
  decide

/-- C5 (amended): for every label containing no digit, neither parser
raises: the regex parser of `src/index.js` returns exactly `now`; the
`parseInt`-based parser of `src/unnamed/part_000` returns `now` when the
label contains none of the five unit substrings, and an invalid (NaN)
instant — not `now` — when it contains one. -/
theorem C5_no_digit_fallback :
    (∀ (label : String) (now : Int), (∀ c ∈ label.data, isDigitCh c = false) →
      parseTimeAgo label now = now) ∧
    (∀ (label : String) (now : Int),
      containsSub "minute".data label.data = false →
      containsSub "hour".data label.data = false →
      containsSub "day".data label.data = false →
      containsSub "month".data label.data = false →
      containsSub "year".data label.data = false →
      parseTimeAgoV2 label now = some now) ∧
    (∀ (label : String) (now : Int), (∀ c ∈ label.data, isDigitCh c = false) →
      (containsSub "minute".data label.data = true ∨
       containsSub "hour".data label.data = true ∨
       containsSub "day".data label.data = true ∨
       containsSub "month".data label.data = true ∨
       containsSub "year".data label.data = true) →
      parseTimeAgoV2 label now = none) := by
  refine ⟨?_, ?_, ?_⟩
  · intro label now h
    unfold parseTimeAgo parseTimeAgoR
    rw [findMatch_none label.data h]
  · intro label now h1 h2 h3 h4 h5
    unfold parseTimeAgoV2
    simp [h1, h2, h3, h4, h5]
  · intro label now h hsub
    have hjs : jsParseInt label = none := jsParseInt_none label h
    unfold parseTimeAgoV2
    rw [hjs]
    split_ifs <;> simp_all

/-- Witness for C5: the three amended cases at `"just now"` and
`"a day ago"`. -/
theorem C5_witness :
    parseTimeAgo "a day ago" 9 = 9 ∧ parseTimeAgoV2 "just now" 9 = some 9 ∧
      parseTimeAgoV2 "a day ago" 9 = none := by
  refine ⟨C5_no_digit_fallback.1 "a day ago" 9 (by decide),
    C5_no_digit_fallback.2.1 "just now" 9 (by decide) (by decide) (by decide) (by decide)
      (by decide),
    C5_no_digit_fallback.2.2 "a day ago" 9 (by decide) (by decide)⟩

/-- C6 counterexample: `parseTimeAgo` performs its own `new Date()` read on
every call (line 137 of `src/index.js`), so no single per-run reference
instant exists: under a clock that has advanced by 1 ms between the two
reads, two entries with the *identical* label `"5 minutes"` are parsed to
two *different* instants — refuting "every entry in that run is parsed
against that same instant" and "parsing does not re-read the wall clock
per entry". -/
theorem C6_counterexample :
    collectTimestamps (fun n => (n : Int)) ["5 minutes", "5 minutes"] 0 =
      ([-300000, -299999], 2) ∧ (-300000 : Int) ≠ -299999 := by
  decide

/-- C6 (amended): no run-level reference `now` is captured; instead the
collection loop performs exactly one wall-clock read per entry (the final
read counter advances by the number of entries), and entry `i` is parsed
against the `(s + i)`-th clock reading. -/
theorem C6_clock_read_per_entry (t : Nat → Int) (labels : List String) (s : Nat) :
    collectTimestamps t labels s =
      (labels.mapIdx (fun i lab => parseTimeAgo lab (t (s + i))), s + labels.length) :=
  collectTimestamps_eval t labels s

/-- C7: the parser is deterministic and free of hidden state — its result
is a function of the (label, now) pair alone: two calls whose clock reads
return the same instant yield the same parsed instant, whatever the clock
oracles and read counters are. -/
theorem C7_parse_deterministic (label : String) (t1 t2 : Nat → Int) (s1 s2 : Nat)
    (h : t1 s1 = t2 s2) :
    (parseTimeAgoClk t1 label s1).1 = (parseTimeAgoClk t2 label s2).1 := by
  simp [parseTimeAgoClk, h]

/-- Witness for C7: same label, same clock value, different read counters
and clock oracles. -/
theorem C7_witness :
    (parseTimeAgoClk (fun _ => 5) "5 minutes" 0).1 =
      (parseTimeAgoClk (fun n => 5 + (n : Int) - (n : Int)) "5 minutes" 9).1 :=
  C7_parse_deterministic "5 minutes" _ _ 0 9 (by norm_num)

/-- C8 counterexample: retry-with-backoff is *not* applied around the
navigation step only — line 58 of `src/index.js` also wraps the row-locator
query in `retry`.  Concretely, with navigation always succeeding and the
row query failing on its first attempt only, the collection phase still
succeeds after one 1000 ms back-off sleep; under the claim the row query
would be attempted once and its failure would be fatal. -/
theorem C8_counterexample :
    navAndLocate (fun _ => Except.ok ())
        (fun i => if i = 0 then Except.error "locator timeout" else Except.ok [42]) =
      (some (Except.ok ([42] : List Nat)), [1000]) ∧
    (fun i => if i = 0 then (Except.error "locator timeout" : Except String (List Nat))
        else Except.ok [42]) 0 = Except.error "locator timeout" := by
  decide

/-- C8 (amended): retry with exponential backoff is applied around the
navigation step *and* the initial row-locator query, each with up to 3
attempts and the sleep doubling from the base delay on each retry;
exhausting all attempts throws the last error, which escalates out of the
phase (fatal for the run). -/
theorem C8_retry_semantics :
    (∀ (d : Nat) (fn : Nat → Except String Unit) (e : Nat → String),
      (∀ i, i < 3 → fn i = Except.error (e i)) →
      retry fn 3 d = (some (Except.error (e 2)), [d, d * 2])) ∧
    (∀ (g : Nat → Except String Unit) (r : Nat → Except String (List Nat)) (e : Nat → String),
      (∀ i, i < 3 → g i = Except.error (e i)) →
      navAndLocate g r = (some (Except.error (e 2)), [1000, 2000])) ∧
    (∀ (g : Nat → Except String Unit) (r : Nat → Except String (List Nat))
        (rows : List Nat) (err : String),
      g 0 = Except.ok () → r 0 = Except.error err → r 1 = Except.ok rows →
      navAndLocate g r = (some (Except.ok rows), [1000])) := by
  refine ⟨fun d fn e h => retry_all_fail d fn e h, ?_, ?_⟩
  · intro g r e h
    unfold navAndLocate
    rw [retry_all_fail 1000 g e h]
  · intro g r rows err hg h0 h1
    have hgres : retry g 3 1000 = (some (Except.ok ()), []) := by
      simp [retry, retryAux, hg]
    have hrres : retry r 3 1000 = (some (Except.ok rows), [1000]) := by
      simp [retry, retryAux, h0, h1]
    unfold navAndLocate
    rw [hgres]
    simp [hrres]

/-- Witness for C8: a concrete always-failing operation sleeps
`[500, 1000]` and throws the attempt-2 error. -/
theorem C8_witness :
    retry (fun _ => (Except.error "boom" : Except String Unit)) 3 500 =
      (some (Except.error "boom"), [500, 500 * 2]) :=
  C8_retry_semantics.1 500 _ (fun _ => "boom") (fun _ _ => rfl)

/-- C9: on every exit path of a run — normal completion, failed
validation, or any raised error (navigation exhaustion, row-extraction
failure, even a failure of the failure screenshot itself) — the trace ends
with the `finally` block's `browser.close()`, performed exactly once and
never skipped; the same holds for the earlier script variant. -/
theorem C9_browser_closed_on_every_path :
    (∀ o : Oracles, ∃ pre, (runModel o).2 = pre ++ [Ev.close] ∧ Ev.close ∉ pre) ∧
    (∀ o : Oracles, ∃ pre, (runModelV2 o).2 = pre ++ [Ev.close] ∧ Ev.close ∉ pre) := by
  constructor
  · intro o
    rcases hb : runBody o with ⟨r, evs⟩
    have hevs : evs = [] ∨ evs = [Ev.screenshot] := by
      have := runBody_evs o
      rw [hb] at this
      exact this
    rcases r with e | u
    · refine ⟨evs ++ [Ev.screenshot], ?_, ?_⟩
      · unfold runModel
        rw [hb]
      · rcases hevs with h | h <;> subst h <;> decide
    · refine ⟨evs, ?_, ?_⟩
      · unfold runModel
        rw [hb]
      · rcases hevs with h | h <;> subst h <;> decide
  · intro o
    refine ⟨[], ?_, by simp⟩
    unfold runModelV2
    rcases o.gotoRes 0 with e | u
    · rfl
    rcases o.rowsRes 0 with e | raw
    · rfl
    rcases hx : extractAll (raw.take 100) with e | pairs <;> simp [hx]

/-- C10 counterexample: the claim quantifies over unit words whose
*lower-cased* form is in the table, but the `includes` checks of
`src/unnamed/part_000` are case-sensitive while the regex variant
lower-cases the captured unit: on `"5 Minutes"` the regex parser returns
`now - 300000` and the `parseInt` variant falls through to `now`. -/
theorem C10_counterexample :
    parseTimeAgo "5 Minutes" 0 = -300000 ∧ parseTimeAgoV2 "5 Minutes" 0 = some 0 ∧
      parseTimeAgoV2 "5 Minutes" 0 ≠ some (parseTimeAgo "5 Minutes" 0) := by
  decide

/-- C10 (amended): for every label `<digits> <unit>` whose unit word is
one of the lower-case forms `minute(s)`, `hour(s)`, `day(s)`, `month(s)`,
`year(s)`, and every common reference instant `now`, the two variants'
parsers agree: both return `now - n * multiplier`. -/
theorem C10_parsers_agree_lowercase (ds : List Char) (hds : ds ≠ [])
    (hd : ∀ c ∈ ds, isDigitCh c = true) (u : String)
    (hu : u ∈ (["minute", "minutes", "hour", "hours", "day", "days",
      "month", "months", "year", "years"] : List String)) (now : Int) :
    parseTimeAgoV2 (String.mk (ds ++ ' ' :: u.data)) now =
      some (parseTimeAgo (String.mk (ds ++ ' ' :: u.data)) now) := by
  fin_cases hu
  · rw [parseTimeAgoV2_eval ds "minute".data now hds hd]
    have hV1 := parseTimeAgoR_known ds "minute".data [] now 60000 hds hd (by decide)
      (by decide) (by intro c hc; simp at hc) (by decide)
    rw [List.append_nil] at hV1
    unfold parseTimeAgo
    rw [hV1]
    simp [show containsSub "minute".data "minute".data = true from by decide]
  · rw [parseTimeAgoV2_eval ds "minutes".data now hds hd]
    have hV1 := parseTimeAgoR_known ds "minutes".data [] now 60000 hds hd (by decide)
      (by decide) (by intro c hc; simp at hc) (by decide)
    rw [List.append_nil] at hV1
    unfold parseTimeAgo
    rw [hV1]
    simp [show containsSub "minute".data "minutes".data = true from by decide]
  · rw [parseTimeAgoV2_eval ds "hour".data now hds hd]
    have hV1 := parseTimeAgoR_known ds "hour".data [] now 3600000 hds hd (by decide)
      (by decide) (by intro c hc; simp at hc) (by decide)
    rw [List.append_nil] at hV1
    unfold parseTimeAgo
    rw [hV1]
    simp [show containsSub "minute".data "hour".data = false from by decide,
      show containsSub "hour".data "hour".data = true from by decide]
  · rw [parseTimeAgoV2_eval ds "hours".data now hds hd]
    have hV1 := parseTimeAgoR_known ds "hours".data [] now 3600000 hds hd (by decide)
      (by decide) (by intro c hc; simp at hc) (by decide)
    rw [List.append_nil] at hV1
    unfold parseTimeAgo
    rw [hV1]
    simp [show containsSub "minute".data "hours".data = false from by decide,
      show containsSub "hour".data "hours".data = true from by decide]
  · rw [parseTimeAgoV2_eval ds "day".data now hds hd]
    have hV1 := parseTimeAgoR_known ds "day".data [] now 86400000 hds hd (by decide)
      (by decide) (by intro c hc; simp at hc) (by decide)
    rw [List.append_nil] at hV1
    unfold parseTimeAgo
    rw [hV1]
    simp [show containsSub "minute".data "day".data = false from by decide,
      show containsSub "hour".data "day".data = false from by decide,
      show containsSub "day".data "day".data = true from by decide]
  · rw [parseTimeAgoV2_eval ds "days".data now hds hd]
    have hV1 := parseTimeAgoR_known ds "days".data [] now 86400000 hds hd (by decide)
      (by decide) (by intro c hc; simp at hc) (by decide)
    rw [List.append_nil] at hV1
    unfold parseTimeAgo
    rw [hV1]
    simp [show containsSub "minute".data "days".data = false from by decide,
      show containsSub "hour".data "days".data = false from by decide,
      show containsSub "day".data "days".data = true from by decide]
  · rw [parseTimeAgoV2_eval ds "month".data now hds hd]
    have hV1 := parseTimeAgoR_known ds "month".data [] now 2592000000 hds hd (by decide)
      (by decide) (by intro c hc; simp at hc) (by decide)
    rw [List.append_nil] at hV1
    unfold parseTimeAgo
    rw [hV1]
    simp [show containsSub "minute".data "month".data = false from by decide,
      show containsSub "hour".data "month".data = false from by decide,
      show containsSub "day".data "month".data = false from by decide,
      show containsSub "month".data "month".data = true from by decide]
  · rw [parseTimeAgoV2_eval ds "months".data now hds hd]
    have hV1 := parseTimeAgoR_known ds "months".data [] now 2592000000 hds hd (by decide)
      (by decide) (by intro c hc; simp at hc) (by decide)
    rw [List.append_nil] at hV1
    unfold parseTimeAgo
    rw [hV1]
    simp [show containsSub "minute".data "months".data = false from by decide,
      show containsSub "hour".data "months".data = false from by decide,
      show containsSub "day".data "months".data = false from by decide,
      show containsSub "month".data "months".data = true from by decide]
  · rw [parseTimeAgoV2_eval ds "year".data now hds hd]
    have hV1 := parseTimeAgoR_known ds "year".data [] now 31536000000 hds hd (by decide)
      (by decide) (by intro c hc; simp at hc) (by decide)
    rw [List.append_nil] at hV1
    unfold parseTimeAgo
    rw [hV1]
    simp [show containsSub "minute".data "year".data = false from by decide,
      show containsSub "hour".data "year".data = false from by decide,
      show containsSub "day".data "year".data = false from by decide,
      show containsSub "month".data "year".data = false from by decide,
      show containsSub "year".data "year".data = true from by decide]
  · rw [parseTimeAgoV2_eval ds "years".data now hds hd]
    have hV1 := parseTimeAgoR_known ds "years".data [] now 31536000000 hds hd (by decide)
      (by decide) (by intro c hc; simp at hc) (by decide)
    rw [List.append_nil] at hV1
    unfold parseTimeAgo
    rw [hV1]
    simp [show containsSub "minute".data "years".data = false from by decide,
      show containsSub "hour".data "years".data = false from by decide,
      show containsSub "day".data "years".data = false from by decide,
      show containsSub "month".data "years".data = false from by decide,
      show containsSub "year".data "years".data = true from by decide]

/-- Witness for C10: both parsers on `"7 hours"` at `now = 0`. -/
theorem C10_witness :
    parseTimeAgoV2 "7 hours" 0 = some (parseTimeAgo "7 hours" 0) :=
  C10_parsers_agree_lowercase ['7'] (by decide) (by decide) "hours" (by decide) 0

end HNV
